import Mathlib

/-!
Shallow embedding of libavcodec/vda.c (FFmpeg VDA hardware-decode glue).

The module maintains a singly linked queue of decoded frames ordered by
presentation timestamp.  We model the queue as a Lean list (head first),
frames as records, and the external platform calls (VDADecoderDestroy,
VDADecoderDecode, CVPixelBufferRetain/Release) as parameters or as logs of
released handles.  Machine integers: the pts field is a C int64_t that is
only created, copied and compared, never subjected to arithmetic, so it is
modelled as Int; width/height and statuses likewise.  Mutex operations
serialize access and have no other effect, so the sequential model elides
them.
-/

/-- A vda_frame record (vda_internal.h): presentation timestamp plus the
retained CoreVideo buffer handle.  The next_frame link is represented by
list structure. -/
structure VdaFrame where
  pts : Int
  cv_buffer : Nat
  deriving DecidableEq, Repr

/-- A decoded CoreVideo image buffer as seen by the callback: its pixel
format type and the underlying buffer handle. -/
structure CVImageBuffer where
  pixelFormat : Int
  bufferId : Nat
  deriving DecidableEq, Repr

/-- The CoreVideo constant kCVPixelFormatType_422YpCbCr8, the fourcc 2vuy. -/
def kCVPixelFormatType_422YpCbCr8 : Int := 0x32767579

/-- The VDA status constant kVDADecoderNoErr. -/
def kVDADecoderNoErr : Int := 0

/-- vda_pts_from_dictionary (vda.c lines 69-83): the user_info dictionary is
modelled as none (NULL dictionary) or some d where d is the value stored
under the pts key, itself optional (the key may be absent).  Returns 0 when
the dictionary is NULL or the key is missing, otherwise the stored value. -/
def vda_pts_from_dictionary : Option (Option Int) → Int
  | none => 0
  | some none => 0
  | some (some v) => v

/-- The queue-insertion walk of vda_decoder_callback (vda.c lines 127-152):
if the queue is empty or the new pts is strictly below the head pts the new
frame becomes the head; otherwise the walk advances past every record whose
successor exists and has pts less than or equal to the new pts, splicing the
new frame in front of the first strictly greater record. -/
def vda_queue_insert (new_frame : VdaFrame) : List VdaFrame → List VdaFrame
  | [] => [new_frame]
  | queue_walker :: rest =>
    if new_frame.pts < queue_walker.pts then
      new_frame :: queue_walker :: rest
    else
      queue_walker :: vda_queue_insert new_frame rest

/-- vda_decoder_callback (vda.c lines 104-155).  allocOk models whether
av_mallocz succeeds.  Returns the new queue, or none when the execution hits
undefined behaviour: the code stores through the pointer returned by
av_mallocz without a NULL check, so a failed allocation dereferences NULL. -/
def vda_decoder_callback (allocOk : Bool) (user_info : Option (Option Int))
    (image_buffer : Option CVImageBuffer) (queue : List VdaFrame) :
    Option (List VdaFrame) :=
  match image_buffer with
  | none => some queue
  | some img =>
    if kCVPixelFormatType_422YpCbCr8 ≠ img.pixelFormat then
      some queue
    else if allocOk then
      some (vda_queue_insert
        { pts := vda_pts_from_dictionary user_info, cv_buffer := img.bufferId }
        queue)
    else
      none

/-- ff_vda_queue_pop (vda.c lines 224-237): returns NULL when the queue is
empty, otherwise detaches and returns the head record.  Result is the popped
record (or none) together with the remaining queue. -/
def ff_vda_queue_pop : List VdaFrame → Option VdaFrame × List VdaFrame
  | [] => (none, [])
  | top_frame :: rest => (some top_frame, rest)

/-- ff_vda_release_vda_frame (vda.c lines 239-246): releases the CoreVideo
buffer of a non-NULL frame and frees it.  Modelled as the list of buffer
handles released by the call. -/
def ff_vda_release_vda_frame : Option VdaFrame → List Nat
  | none => []
  | some frame => [frame.cv_buffer]

/-- vda_clear_queue (vda.c lines 86-100): repeatedly detaches the head and
releases it until the queue is empty.  Result is the final queue paired with
the log of released buffer handles, in release order. -/
def vda_clear_queue : List VdaFrame → List VdaFrame × List Nat
  | [] => ([], [])
  | top_frame :: rest =>
    let r := vda_clear_queue rest
    (r.1, ff_vda_release_vda_frame (some top_frame) ++ r.2)

/-- ff_vda_destroy_decoder (vda.c lines 206-222): when the external handle
is present, asks the platform to destroy it and keeps the status; the queue
is cleared in every case; returns the status when it is an error, 0
otherwise.  The external VDADecoderDestroy call is a parameter.  Result is
the returned status, the final queue and the release log. -/
def ff_vda_destroy_decoder (decoder : Option Nat) (vdaDecoderDestroy : Nat → Int)
    (queue : List VdaFrame) : Int × List VdaFrame × List Nat :=
  let status : Int :=
    match decoder with
    | some d => vdaDecoderDestroy d
    | none => kVDADecoderNoErr
  let cleared := vda_clear_queue queue
  (if kVDADecoderNoErr ≠ status then status else 0, cleared.1, cleared.2)

/-- ff_vda_decoder_decode (vda.c lines 248-269): builds the pts dictionary
and the coded-frame data, forwards them to VDADecoderDecode (whose resulting
status is a parameter here), and returns that status when it is an error, 0
otherwise.  The queue is not touched; the model carries it through to state
that. -/
def ff_vda_decoder_decode (vdaDecoderDecode_status : Int)
    (queue : List VdaFrame) : Int × List VdaFrame :=
  (if kVDADecoderNoErr ≠ vdaDecoderDecode_status then vdaDecoderDecode_status
   else 0, queue)

/-- A queue operation: an insertion performed by the decoder callback, or a
consumer pop. -/
inductive QueueOp where
  | insert (f : VdaFrame)
  | pop
  deriving Repr

/-- One step of queue evolution: insert uses the callback insertion walk, pop
uses ff_vda_queue_pop and discards the popped frame. -/
def applyOp (queue : List VdaFrame) : QueueOp → List VdaFrame
  | .insert f => vda_queue_insert f queue
  | .pop => (ff_vda_queue_pop queue).2

/-- Fuelled drain loop: pop repeatedly via ff_vda_queue_pop until empty. -/
def drainFramesAux : Nat → List VdaFrame → List VdaFrame
  | 0, _ => []
  | fuel + 1, queue =>
    match ff_vda_queue_pop queue with
    | (some top, rest) => top :: drainFramesAux fuel rest
    | (none, _) => []

/-- The sequence of frames obtained by calling ff_vda_queue_pop until the
queue reports empty. -/
def drainFrames (queue : List VdaFrame) : List VdaFrame :=
  drainFramesAux queue.length queue

/-- The queue ordering invariant: non-decreasing pts from head to tail. -/
def SortedByPts (queue : List VdaFrame) : Prop :=
  List.Sorted (fun a b => a.pts ≤ b.pts) queue

instance : DecidablePred SortedByPts := fun q =>
  inferInstanceAs (Decidable (List.Sorted _ q))

/-! Helper lemmas about the queue operations. -/

theorem mem_vda_queue_insert {g f : VdaFrame} {q : List VdaFrame} :
    g ∈ vda_queue_insert f q ↔ g = f ∨ g ∈ q := by
  induction q with
  | nil => simp [vda_queue_insert]
  | cons x xs ih =>
    rw [vda_queue_insert]
    split
    · simp [or_comm, or_left_comm]
    · simp [ih, or_comm, or_left_comm]

theorem sortedByPts_vda_queue_insert {q : List VdaFrame} (f : VdaFrame)
    (h : SortedByPts q) : SortedByPts (vda_queue_insert f q) := by
  induction q with
  | nil => simp [SortedByPts, vda_queue_insert]
  | cons x xs ih =>
    rw [SortedByPts, List.sorted_cons] at h
    obtain ⟨hx, hxs⟩ := h
    rw [vda_queue_insert]
    split
    next hlt =>
      rw [SortedByPts, List.sorted_cons]
      refine ⟨?_, List.sorted_cons.mpr ⟨hx, hxs⟩⟩
      intro b hb
      rcases List.mem_cons.mp hb with rfl | hb
      · exact le_of_lt hlt
      · exact le_trans (le_of_lt hlt) (hx b hb)
    next hge =>
      rw [SortedByPts, List.sorted_cons]
      refine ⟨?_, ih hxs⟩
      intro b hb
      rcases mem_vda_queue_insert.mp hb with rfl | hb
      · exact le_of_not_lt hge
      · exact hx b hb

theorem vda_queue_insert_perm (f : VdaFrame) (q : List VdaFrame) :
    List.Perm (vda_queue_insert f q) (f :: q) := by
  induction q with
  | nil => exact List.Perm.refl _
  | cons x xs ih =>
    rw [vda_queue_insert]
    split
    · exact List.Perm.refl _
    · exact List.Perm.trans (List.Perm.cons x ih) (List.Perm.swap f x xs)

theorem vda_clear_queue_eq (q : List VdaFrame) :
    vda_clear_queue q = ([], q.map VdaFrame.cv_buffer) := by
  induction q with
  | nil => rfl
  | cons x xs ih => simp [vda_clear_queue, ff_vda_release_vda_frame, ih]

theorem drainFramesAux_eq (fuel : Nat) (q : List VdaFrame)
    (h : q.length ≤ fuel) : drainFramesAux fuel q = q := by
  induction fuel generalizing q with
  | zero =>
    cases q with
    | nil => rfl
    | cons x xs => simp at h
  | succ n ih =>
    cases q with
    | nil => rfl
    | cons x xs =>
      rw [drainFramesAux]
      simp only [ff_vda_queue_pop]
      rw [ih xs (Nat.le_of_succ_le_succ (by simpa using h))]

theorem drainFrames_eq (q : List VdaFrame) : drainFrames q = q :=
  drainFramesAux_eq q.length q le_rfl

theorem sortedByPts_applyOp {q : List VdaFrame} (h : SortedByPts q)
    (op : QueueOp) : SortedByPts (applyOp q op) := by
  cases op with
  | insert f => exact sortedByPts_vda_queue_insert f h
  | pop =>
    cases q with
    | nil => exact h
    | cons x xs => exact ((List.sorted_cons.mp h).2 : SortedByPts xs)

theorem sortedByPts_foldl (ops : List QueueOp) {q : List VdaFrame}
    (h : SortedByPts q) : SortedByPts (List.foldl applyOp q ops) := by
  induction ops generalizing q with
  | nil => exact h
  | cons op ops ih => exact ih (sortedByPts_applyOp h op)

theorem sortedByPts_foldl_insert (frames : List VdaFrame) {q : List VdaFrame}
    (h : SortedByPts q) :
    SortedByPts (List.foldl (fun acc f => vda_queue_insert f acc) q frames) := by
  induction frames generalizing q with
  | nil => exact h
  | cons f fs ih => exact ih (sortedByPts_vda_queue_insert f h)

theorem foldl_insert_perm (frames q : List VdaFrame) :
    List.Perm (List.foldl (fun acc f => vda_queue_insert f acc) q frames)
      (frames ++ q) := by
  induction frames generalizing q with
  | nil => exact List.Perm.refl _
  | cons f fs ih =>
    refine List.Perm.trans (ih (vda_queue_insert f q)) ?_
    refine List.Perm.trans (List.Perm.append_left fs (vda_queue_insert_perm f q)) ?_
    exact List.perm_middle

/-! Claim theorems. -/

/-- C1: for every sequence of callback insertions interleaved with consumer
pops, starting from the empty queue, the sequence of timestamps obtained by
repeatedly calling ff_vda_queue_pop until the queue is empty is
non-decreasing. -/
theorem c1_drain_pts_nondecreasing (ops : List QueueOp) :
    List.Sorted (fun a b => a ≤ b)
      (List.map VdaFrame.pts (drainFrames (List.foldl applyOp [] ops))) := by
  have h : SortedByPts (List.foldl applyOp [] ops) :=
    sortedByPts_foldl ops List.sorted_nil
  rw [drainFrames_eq]
  exact (List.pairwise_map).mpr h

/-- C2: on a queue satisfying the ordering invariant, the callback insertion
walk places the new record exactly after every record whose timestamp is
less than or equal to the new timestamp and before every strictly greater
one, so records with equal timestamps keep their arrival order. -/
theorem c2_insert_after_last_le (f : VdaFrame) (q : List VdaFrame)
    (h : SortedByPts q) :
    vda_queue_insert f q =
      q.filter (fun g => g.pts ≤ f.pts) ++
        f :: q.filter (fun g => f.pts < g.pts) := by
  induction q with
  | nil => rfl
  | cons x xs ih =>
    unfold SortedByPts at h
    rw [List.sorted_cons] at h
    obtain ⟨hx, hxs⟩ := h
    rw [vda_queue_insert]
    split
    next hlt =>
      have h1 : (x :: xs).filter (fun g => g.pts ≤ f.pts) = [] := by
        rw [List.filter_eq_nil_iff]
        intro a ha
        simp only [decide_eq_true_eq, not_le]
        rcases List.mem_cons.mp ha with rfl | ha
        · exact hlt
        · exact lt_of_lt_of_le hlt (hx a ha)
      have h2 : (x :: xs).filter (fun g => f.pts < g.pts) = x :: xs := by
        rw [List.filter_eq_self]
        intro a ha
        simp only [decide_eq_true_eq]
        rcases List.mem_cons.mp ha with rfl | ha
        · exact hlt
        · exact lt_of_lt_of_le hlt (hx a ha)
      rw [h1, h2, List.nil_append]
    next hge =>
      have hxle : x.pts ≤ f.pts := le_of_not_lt hge
      rw [List.filter_cons_of_pos (by simpa using hxle),
        List.filter_cons_of_neg (by simpa using hge), ih hxs, List.cons_append]

/-- Witness for C2 at a concrete sorted queue holding two records tied at
timestamp 5; the new tied record lands after both of them. -/
theorem c2_insert_after_last_le_witness :
    vda_queue_insert ⟨5, 9⟩ [⟨5, 1⟩, ⟨5, 2⟩, ⟨7, 3⟩] =
      ([⟨5, 1⟩, ⟨5, 2⟩, ⟨7, 3⟩] : List VdaFrame).filter
          (fun g => g.pts ≤ (⟨5, 9⟩ : VdaFrame).pts) ++
        ⟨5, 9⟩ :: ([⟨5, 1⟩, ⟨5, 2⟩, ⟨7, 3⟩] : List VdaFrame).filter
          (fun g => (⟨5, 9⟩ : VdaFrame).pts < g.pts) :=
  c2_insert_after_last_le ⟨5, 9⟩ [⟨5, 1⟩, ⟨5, 2⟩, ⟨7, 3⟩] (by decide)

/-- C3: on a queue satisfying the ordering invariant, ff_vda_queue_pop
returns none and leaves the queue empty when there are no records, and
otherwise removes and returns the head record, whose timestamp is the
smallest timestamp present in the queue. -/
theorem c3_pop_returns_min (q : List VdaFrame) (h : SortedByPts q) :
    (q = [] → ff_vda_queue_pop q = (none, [])) ∧
    ∀ f fs, q = f :: fs →
      ff_vda_queue_pop q = (some f, fs) ∧ ∀ g ∈ q, f.pts ≤ g.pts := by
  refine ⟨?_, ?_⟩
  · rintro rfl
    rfl
  · rintro f fs rfl
    refine ⟨rfl, ?_⟩
    intro g hg
    unfold SortedByPts at h
    rcases List.mem_cons.mp hg with rfl | hg
    · exact le_rfl
    · exact (List.sorted_cons.mp h).1 g hg

/-- Witness for C3 at a concrete sorted two-record queue. -/
theorem c3_pop_returns_min_witness :
    (([⟨1, 10⟩, ⟨2, 11⟩] : List VdaFrame) = [] →
      ff_vda_queue_pop [⟨1, 10⟩, ⟨2, 11⟩] = (none, [])) ∧
    ∀ f fs, ([⟨1, 10⟩, ⟨2, 11⟩] : List VdaFrame) = f :: fs →
      ff_vda_queue_pop [⟨1, 10⟩, ⟨2, 11⟩] = (some f, fs) ∧
      ∀ g ∈ ([⟨1, 10⟩, ⟨2, 11⟩] : List VdaFrame), f.pts ≤ g.pts :=
  c3_pop_returns_min [⟨1, 10⟩, ⟨2, 11⟩] (by decide)

/-- C4: folding the callback insertions of a list of at least 100 frames
with pairwise distinct timestamps into the empty queue and then draining it
via ff_vda_queue_pop yields exactly as many records as were inserted, a
permutation of the inserted records, with the same timestamp set, in
non-decreasing timestamp order. -/
theorem c4_no_loss (frames : List VdaFrame)
    (hdistinct : (frames.map VdaFrame.pts).Nodup)
    (hn : 100 ≤ frames.length) :
    (drainFrames
        (List.foldl (fun acc f => vda_queue_insert f acc) [] frames)).length
      = frames.length ∧
    List.Perm
      (drainFrames (List.foldl (fun acc f => vda_queue_insert f acc) [] frames))
      frames ∧
    (∀ t : Int,
      t ∈ (drainFrames
          (List.foldl (fun acc f => vda_queue_insert f acc) [] frames)).map
            VdaFrame.pts ↔
      t ∈ frames.map VdaFrame.pts) ∧
    List.Sorted (fun a b => a ≤ b)
      ((drainFrames
          (List.foldl (fun acc f => vda_queue_insert f acc) [] frames)).map
        VdaFrame.pts) := by
  have hperm :
      List.Perm (List.foldl (fun acc f => vda_queue_insert f acc) [] frames)
        frames := by
    simpa using foldl_insert_perm frames []
  have hsorted :
      SortedByPts (List.foldl (fun acc f => vda_queue_insert f acc) [] frames) :=
    sortedByPts_foldl_insert frames List.sorted_nil
  rw [drainFrames_eq]
  refine ⟨hperm.length_eq, hperm, ?_, ?_⟩
  · intro t
    exact (hperm.map VdaFrame.pts).mem_iff
  · exact (List.pairwise_map).mpr hsorted

/-- Witness for C4 using 100 frames with the distinct timestamps 0..99. -/
theorem c4_no_loss_witness :
    (drainFrames (List.foldl (fun acc f => vda_queue_insert f acc) []
        ((List.range 100).map fun i => VdaFrame.mk (Int.ofNat i) i))).length
      = ((List.range 100).map fun i => VdaFrame.mk (Int.ofNat i) i).length :=
  (c4_no_loss ((List.range 100).map fun i => VdaFrame.mk (Int.ofNat i) i)
    (by decide) (by decide)).1

/-- C5: a callback invocation with an absent image, or with an image whose
pixel format differs from the expected 422YpCbCr8 format, returns without
touching the queue. -/
theorem c5_guard_drops (allocOk : Bool) (ui : Option (Option Int))
    (img : Option CVImageBuffer) (q : List VdaFrame)
    (h : img = none ∨
      ∀ b, img = some b → b.pixelFormat ≠ kCVPixelFormatType_422YpCbCr8) :
    vda_decoder_callback allocOk ui img q = some q := by
  rcases h with rfl | h
  · rfl
  · cases img with
    | none => rfl
    | some b =>
      have hb := h b rfl
      simp [vda_decoder_callback, Ne.symm hb]

/-- Witness for C5 at a callback delivery with an absent image over a
one-record queue. -/
theorem c5_guard_drops_witness :
    vda_decoder_callback true none none [⟨3, 4⟩] = some [⟨3, 4⟩] :=
  c5_guard_drops true none none [⟨3, 4⟩] (Or.inl rfl)

/-- C6: ff_vda_destroy_decoder always drains the queue, releasing every
queued buffer handle; with an absent external handle it skips the external
destroy request and returns 0, and otherwise it returns exactly the status
the external destroy reported, which is 0 on success. -/
theorem c6_destroy_always_drains (decoder : Option Nat)
    (vdaDecoderDestroy : Nat → Int) (q : List VdaFrame) :
    ff_vda_destroy_decoder decoder vdaDecoderDestroy q =
      ((match decoder with
        | some d => vdaDecoderDestroy d
        | none => 0), [], q.map VdaFrame.cv_buffer) := by
  cases decoder with
  | none => simp [ff_vda_destroy_decoder, vda_clear_queue_eq, kVDADecoderNoErr]
  | some d =>
    rcases eq_or_ne (vdaDecoderDestroy d) 0 with h | h
    · simp [ff_vda_destroy_decoder, vda_clear_queue_eq, kVDADecoderNoErr, h]
    · simp [ff_vda_destroy_decoder, vda_clear_queue_eq, kVDADecoderNoErr, h,
        Ne.symm h]

/-- C7: ff_vda_decoder_decode returns a nonzero status exactly when the
external decode entry point reports a nonzero status, and the queue is
unchanged in either case. -/
theorem c7_submit_status_iff (st : Int) (q : List VdaFrame) :
    ((ff_vda_decoder_decode st q).1 ≠ 0 ↔ st ≠ kVDADecoderNoErr) ∧
    (ff_vda_decoder_decode st q).2 = q := by
  refine ⟨?_, rfl⟩
  rcases eq_or_ne st 0 with h | h
  · simp [ff_vda_decoder_decode, kVDADecoderNoErr, h]
  · simp [ff_vda_decoder_decode, kVDADecoderNoErr, h, Ne.symm h]

/-- C8: clearing the queue leaves it empty, and the release log records the
buffer release hook fired exactly once for each record that was queued. -/
theorem c8_clear_releases_once (q : List VdaFrame) :
    (vda_clear_queue q).1 = [] ∧
    ∀ h : Nat, ((vda_clear_queue q).2).count h
        = (q.map VdaFrame.cv_buffer).count h := by
  rw [vda_clear_queue_eq]
  exact ⟨rfl, fun h => rfl⟩

/-- C9: the callback does not check the result of av_mallocz, so on
allocation failure with a valid 422YpCbCr8 image present it stores through a
NULL pointer (the undefined-behaviour result, modelled as none) instead of
silently dropping that frame and leaving the queue unchanged. -/
theorem c9_alloc_failure_hits_null_store :
    vda_decoder_callback false (some (some 3))
        (some { pixelFormat := kCVPixelFormatType_422YpCbCr8, bufferId := 1 })
        [] = none ∧
    vda_decoder_callback false (some (some 3))
        (some { pixelFormat := kCVPixelFormatType_422YpCbCr8, bufferId := 1 })
        [] ≠ some [] := by
  exact ⟨rfl, by simp [vda_decoder_callback]⟩

/-- C10: with a valid image of the expected format and a user_info
dictionary that is absent or lacks the pts entry, the callback still builds
a record and inserts it into the queue with timestamp 0. -/
theorem c10_missing_pts_inserts_zero (ui : Option (Option Int))
    (img : CVImageBuffer) (q : List VdaFrame)
    (hfmt : img.pixelFormat = kCVPixelFormatType_422YpCbCr8)
    (hui : ui = none ∨ ui = some none) :
    vda_decoder_callback true ui (some img) q =
      some (vda_queue_insert { pts := 0, cv_buffer := img.bufferId } q) := by
  have hpts : vda_pts_from_dictionary ui = 0 := by
    rcases hui with rfl | rfl <;> rfl
  simp [vda_decoder_callback, hfmt, hpts]

/-- Witness for C10 at an absent user_info dictionary over the empty
queue. -/
theorem c10_missing_pts_inserts_zero_witness :
    vda_decoder_callback true none
        (some { pixelFormat := kCVPixelFormatType_422YpCbCr8, bufferId := 7 })
        [] =
      some (vda_queue_insert { pts := 0, cv_buffer := 7 } []) :=
  c10_missing_pts_inserts_zero none
    { pixelFormat := kCVPixelFormatType_422YpCbCr8, bufferId := 7 } [] rfl
    (Or.inl rfl)
